import Mathlib

/-!
# Trabalho Dani: the messages endpoint

A shallow embedding of `main.go`: the `Message` record, the `messages` table
behind the global `db` handle, and `messagesHandler`, the single handler that
dispatches on the HTTP method.

Modelling conventions.

* The process-wide handle `db` is threaded explicitly: every store call takes a
  `DB` and returns the `DB` that follows it.
* The table `messages (id INTEGER PRIMARY KEY, message TEXT)` is a list of rows
  in rowid order.  `id` is an alias of the SQLite rowid; the schema does not say
  AUTOINCREMENT, so a new rowid is one more than the largest rowid present.
* `DB.executed` is a ghost log of the statements issued on the handle, so that
  "no statement is executed" can be stated.
* Go `int` is taken to be 64 bits wide, so `int(id)` of an `int64` is the same
  number.  Integers are `Int`; the one place where the 64-bit bound matters, the
  largest rowid, is explicit.
* `json.Unmarshal` is a parameter of the handler; `strconv.Atoi`, the response
  writer and the JSON encoding of a `Message` and of a `[]Message` are modelled.
* Failures of the environment (disk, locking) are not modelled: of the store
  calls only INSERT can fail, when no rowid is free.
-/

namespace TrabalhoDani

/-! ## Data model -/

/-- Message is the Go struct with its two fields. -/
structure Message where
  ID : Int
  Text : String
deriving DecidableEq, Repr

/-- JSON values, as written by the encoder. -/
inductive JSON where
  | null
  | num (n : Int)
  | str (s : String)
  | arr (items : List JSON)
  | obj (fields : List (String × JSON))

/-- Encoding of one Message: the struct tags give the keys id and message. -/
def Message.toJSON (m : Message) : JSON :=
  .obj [("id", .num m.ID), ("message", .str m.Text)]

/-- Append on a Go slice of messages; none is the nil slice. -/
def appendMessage (messages : Option (List Message)) (msg : Message) : Option (List Message) :=
  match messages with
  | none => some [msg]
  | some l => some (l ++ [msg])

/-- Encoding of a Go slice of messages: a nil slice is written as null,
any other slice as an array. -/
def encodeMessages : Option (List Message) → JSON
  | none => .null
  | some l => .arr (l.map Message.toJSON)

/-! ## The response writer -/

/-- One write to the response body: a text line (written by the error helper)
or a JSON value followed by a newline (written by the encoder). -/
inductive Chunk where
  | line (s : String)
  | json (v : JSON)

/-- State of an http.ResponseWriter: the status is none until the header is
written. -/
structure ResponseWriter where
  status : Option Nat
  body : List Chunk

/-- The writer a handler receives: nothing written yet. -/
def ResponseWriter.fresh : ResponseWriter := ⟨none, []⟩

/-- WriteHeader fixes the status; a second call is ignored. -/
def ResponseWriter.WriteHeader (w : ResponseWriter) (code : Nat) : ResponseWriter :=
  match w.status with
  | none => { w with status := some code }
  | some _ => w

/-- Write sends the header with status 200 when none was written before. -/
def ResponseWriter.Write (w : ResponseWriter) (c : Chunk) : ResponseWriter :=
  { status := some (w.status.getD 200), body := w.body ++ [c] }

/-- The helper http.Error: status, then the text as one line. -/
def Error (w : ResponseWriter) (error : String) (code : Nat) : ResponseWriter :=
  (w.WriteHeader code).Write (.line error)

/-- The call json.NewEncoder(w).Encode(v) for an already converted value. -/
def Encode (w : ResponseWriter) (v : JSON) : ResponseWriter :=
  w.Write (.json v)

def StatusOK : Nat := 200
def StatusCreated : Nat := 201
def StatusBadRequest : Nat := 400
def StatusMethodNotAllowed : Nat := 405
def StatusInternalServerError : Nat := 500

/-! ## The store -/

/-- One row of the table messages. -/
structure Row where
  id : Int
  message : String
deriving DecidableEq, Repr

/-- The SQL statements the program issues. -/
inductive Stmt where
  | createTable
  | selectAll
  | insert (message : String)
  | update (message : String) (id : Int)
  | delete (id : Int)
deriving DecidableEq, Repr

/-- The open store: the rows of messages in rowid order and the statements
issued so far. -/
structure DB where
  rows : List Row
  executed : List Stmt
deriving DecidableEq, Repr

/-- Record a statement in the log. -/
def DB.log (db : DB) (s : Stmt) : DB :=
  { db with executed := db.executed ++ [s] }

/-- The function init: open the file and create the table if it is absent.
The argument is the table found in the file, none when there is none. -/
def init (file : Option (List Row)) : DB :=
  { rows := file.getD [], executed := [.createTable] }

/-- Largest rowid SQLite can store. -/
def MAX_ROWID : Int := 9223372036854775807

/-- Largest rowid in the table, none when the table is empty. -/
def maxRowid : List Row → Option Int
  | [] => none
  | r :: rs =>
    match maxRowid rs with
    | none => some r.id
    | some m => some (max r.id m)

/-- Whether a rowid is taken. -/
def rowidUsed (rows : List Row) (v : Int) : Bool :=
  rows.any (fun r => r.id == v)

/-- Search for a free rowid among random candidates, as SQLite does once the
largest rowid is taken: each candidate is a random 64-bit value masked to 62
bits plus one; after 100 taken candidates the insert fails. -/
def randomRowid (rand : Nat → Int) (rows : List Row) : Nat → Nat → Except String Int
  | _, 0 => .error "database or disk is full"
  | i, n + 1 =>
    let v := rand i % 2 ^ 62 + 1
    if rowidUsed rows v then randomRowid rand rows (i + 1) n else .ok v

/-- Rowid for a new row: 1 in an empty table, otherwise one more than the
largest, otherwise a random free one. -/
def newRowid (rand : Nat → Int) (rows : List Row) : Except String Int :=
  match maxRowid rows with
  | none => .ok 1
  | some v => if v ≥ MAX_ROWID then randomRowid rand rows 0 100 else .ok (v + 1)

/-- Put a row at its place in rowid order. -/
def insertRow (r : Row) : List Row → List Row
  | [] => [r]
  | x :: xs => if r.id < x.id then r :: x :: xs else x :: insertRow r xs

/-- Result of an INSERT. -/
structure Result where
  lastInsertId : Int
deriving DecidableEq, Repr

/-- LastInsertId of the driver never fails. -/
def Result.LastInsertId (res : Result) : Except String Int := .ok res.lastInsertId

/-- Query "SELECT id, message FROM messages". -/
def DB.Query (db : DB) : DB × Except String (List Row) :=
  (db.log .selectAll, .ok db.rows)

/-- Exec "INSERT INTO messages (message) VALUES (?)". -/
def DB.ExecInsert (rand : Nat → Int) (db : DB) (text : String) : DB × Except String Result :=
  match newRowid rand db.rows with
  | .error err => (db.log (.insert text), .error err)
  | .ok v => ({ (db.log (.insert text)) with rows := insertRow ⟨v, text⟩ db.rows }, .ok ⟨v⟩)

/-- Exec "UPDATE messages SET message = ? WHERE id = ?"; the number is the
count of rows changed. -/
def DB.ExecUpdate (db : DB) (text : String) (id : Int) : DB × Except String Nat :=
  ({ (db.log (.update text id)) with
      rows := db.rows.map (fun r => if r.id = id then { r with message := text } else r) },
   .ok (db.rows.filter (fun r => r.id = id)).length)

/-- Exec "DELETE FROM messages WHERE id = ?"; the number is the count of rows
removed. -/
def DB.ExecDelete (db : DB) (id : Int) : DB × Except String Nat :=
  ({ (db.log (.delete id)) with rows := db.rows.filter (fun r => r.id ≠ id) },
   .ok (db.rows.filter (fun r => r.id = id)).length)

/-- The call rows.Scan(&msg.ID, &msg.Text) on the current row. -/
def Row.Scan (row : Row) : Except String Message := .ok ⟨row.id, row.message⟩

/-- The messages a full scan of the table yields, in order. -/
def messagesOf (rows : List Row) : List Message :=
  rows.map (fun row => ⟨row.id, row.message⟩)

/-- The loop over rows.Next() of the GET branch. -/
def scanRows : List Row → Option (List Message) → Except String (Option (List Message))
  | [], messages => .ok messages
  | row :: rest, messages =>
    match row.Scan with
    | .error err => .error err
    | .ok msg => scanRows rest (appendMessage messages msg)

/-! ## Requests -/

/-- The parts of an http.Request the handler reads: the method, the result of
reading the whole body, and the pairs of the URL query in order. -/
structure Request where
  Method : String
  Body : Except String String
  Query : List (String × String)

/-- The call r.URL.Query().Get(key): first value of the key, or the empty
string. -/
def Request.QueryGet (r : Request) (key : String) : String :=
  match r.Query.find? (fun p => p.1 == key) with
  | some p => p.2
  | none => ""

/-- Value of a run of decimal digits, none when a character is not a digit. -/
def parseDigits : List Char → Nat → Option Nat
  | [], n => some n
  | c :: cs, n =>
    if '0' ≤ c ∧ c ≤ '9' then parseDigits cs (n * 10 + (c.toNat - '0'.toNat)) else none

/-- The function strconv.Atoi for a 64-bit int: an optional sign, then at
least one decimal digit, the value within the int range; none stands for a
non-nil error. -/
def Atoi (s : String) : Option Int :=
  match s.toList with
  | [] => none
  | c :: cs =>
    let ds := if c = '-' ∨ c = '+' then cs else c :: cs
    if ds = [] then none
    else
      match parseDigits ds 0 with
      | none => none
      | some n =>
        if c = '-' then (if (n : Int) > 2 ^ 63 then none else some (-(n : Int)))
        else (if (n : Int) ≥ 2 ^ 63 then none else some (n : Int))

/-! ## The handler -/

/-- The handler messagesHandler.  Unmarshal is json.Unmarshal into a zero
Message; rand is the random source of the store for this request. -/
def messagesHandler (Unmarshal : String → Except String Message) (rand : Nat → Int)
    (db : DB) (w : ResponseWriter) (r : Request) : DB × ResponseWriter :=
  if r.Method = "GET" then
    match db.Query with
    | (db, .error err) => (db, Error w err StatusInternalServerError)
    | (db, .ok rows) =>
      match scanRows rows none with
      | .error err => (db, Error w err StatusInternalServerError)
      | .ok messages => (db, Encode w (encodeMessages messages))
  else if r.Method = "POST" then
    match r.Body with
    | .error _ => (db, Error w "Erro ao ler o corpo da solicitação" StatusBadRequest)
    | .ok body =>
      match Unmarshal body with
      | .error _ => (db, Error w "Erro ao analisar o corpo da solicitação" StatusBadRequest)
      | .ok msg =>
        match db.ExecInsert rand msg.Text with
        | (db, .error err) => (db, Error w err StatusInternalServerError)
        | (db, .ok result) =>
          match result.LastInsertId with
          | .error err => (db, Error w err StatusInternalServerError)
          | .ok id =>
            let msg := { msg with ID := id }
            (db, Encode (w.WriteHeader StatusCreated) msg.toJSON)
  else if r.Method = "PUT" then
    match r.Body with
    | .error _ => (db, Error w "Erro ao ler o corpo da solicitação" StatusBadRequest)
    | .ok body =>
      match Unmarshal body with
      | .error _ => (db, Error w "Erro ao analisar o corpo da solicitação" StatusBadRequest)
      | .ok msg =>
        match db.ExecUpdate msg.Text msg.ID with
        | (db, .error err) => (db, Error w err StatusInternalServerError)
        | (db, .ok _) => (db, Encode w msg.toJSON)
  else if r.Method = "DELETE" then
    match Atoi (r.QueryGet "id") with
    | none => (db, Error w "ID inválido" StatusBadRequest)
    | some id =>
      match db.ExecDelete id with
      | (db, .error err) => (db, Error w err StatusInternalServerError)
      | (db, .ok _) => (db, Encode (w.WriteHeader StatusOK) (Message.toJSON ⟨id, ""⟩))
  else
    (db, Error w "Método não suportado" StatusMethodNotAllowed)

/-- One request together with the random source the store has during it. -/
structure Call where
  rand : Nat → Int
  req : Request

/-- The store after serving a sequence of requests, each with a fresh writer. -/
def run (Unmarshal : String → Except String Message) (db : DB) : List Call → DB
  | [] => db
  | c :: cs => run Unmarshal (messagesHandler Unmarshal c.rand db .fresh c.req).1 cs

/-! ## Sample inputs -/

/-- A decoder that agrees with json.Unmarshal on the four bodies it accepts:
two objects with only a message, and two objects with an id and a message. -/
def sampleUnmarshal : String → Except String Message
  | "\x7b\"message\":\"a\"\x7d" => .ok ⟨0, "a"⟩
  | "\x7b\"message\":\"b\"\x7d" => .ok ⟨0, "b"⟩
  | "\x7b\"id\":1,\"message\":\"b\"\x7d" => .ok ⟨1, "b"⟩
  | "\x7b\"id\":7,\"message\":\"b\"\x7d" => .ok ⟨7, "b"⟩
  | _ => .error "invalid character"

/-- A random source that always yields zero. -/
def zeroRand : Nat → Int := fun _ => 0

/-- GET /messages. -/
def getAll : Request := ⟨"GET", .ok "", []⟩

/-- POST /messages with a message a. -/
def postA : Request := ⟨"POST", .ok "\x7b\"message\":\"a\"\x7d", []⟩

/-- POST /messages with a message b. -/
def postB : Request := ⟨"POST", .ok "\x7b\"message\":\"b\"\x7d", []⟩

/-- POST /messages with id 7 and message b. -/
def postSevenB : Request := ⟨"POST", .ok "\x7b\"id\":7,\"message\":\"b\"\x7d", []⟩

/-- PUT /messages with id 1 and message b. -/
def putOneB : Request := ⟨"PUT", .ok "\x7b\"id\":1,\"message\":\"b\"\x7d", []⟩

/-- PUT /messages with id 7 and message b. -/
def putSevenB : Request := ⟨"PUT", .ok "\x7b\"id\":7,\"message\":\"b\"\x7d", []⟩

/-- DELETE /messages?id=1. -/
def deleteOne : Request := ⟨"DELETE", .ok "", [("id", "1")]⟩

/-- DELETE /messages?id=2. -/
def deleteTwo : Request := ⟨"DELETE", .ok "", [("id", "2")]⟩

/-- DELETE /messages?id=7. -/
def deleteSeven : Request := ⟨"DELETE", .ok "", [("id", "7")]⟩

/-- DELETE /messages?id=abc. -/
def deleteAbc : Request := ⟨"DELETE", .ok "", [("id", "abc")]⟩

/-- PATCH /messages. -/
def patchReq : Request := ⟨"PATCH", .ok "", []⟩

/-- POST /messages with a body that is not JSON. -/
def postGarbage : Request := ⟨"POST", .ok "not json", []⟩

/-- A store holding one row. -/
def oneRow : DB := ⟨[⟨1, "a"⟩], [.createTable, .insert "a"]⟩

/-- The store holding one row after a second row was created. -/
def twoRows : DB := ⟨[⟨1, "a"⟩, ⟨2, "b"⟩], [.createTable, .insert "a", .insert "b"]⟩

/-! ## The store: lemmas -/

theorem maxRowid_eq_none {rows : List Row} (h : maxRowid rows = none) : rows = [] := by
  cases rows with
  | nil => rfl
  | cons r rs =>
    simp only [maxRowid] at h
    split at h <;> simp at h

theorem le_of_maxRowid {rows : List Row} {m : Int} (h : maxRowid rows = some m) :
    ∀ row ∈ rows, row.id ≤ m := by
  induction rows generalizing m with
  | nil => simp
  | cons r rs ih =>
    intro row hrow
    simp only [maxRowid] at h
    split at h
    · rename_i hnone
      have hrs := maxRowid_eq_none hnone
      subst hrs
      simp at hrow h
      subst hrow
      omega
    · rename_i m' hsome
      simp at h
      rcases List.mem_cons.mp hrow with hr | hr
      · subst hr; omega
      · have := ih hsome row hr
        omega

theorem rowidUsed_eq_false {rows : List Row} {v : Int} (h : rowidUsed rows v = false) :
    ∀ row ∈ rows, row.id ≠ v := by
  intro row hrow hv
  simp only [rowidUsed, List.any_eq_false] at h
  exact h row hrow (by simp [hv])

theorem randomRowid_ok {rand : Nat → Int} {rows : List Row} {v : Int} :
    ∀ (n i : Nat), randomRowid rand rows i n = .ok v →
      0 < v ∧ ∀ row ∈ rows, row.id ≠ v := by
  intro n
  induction n with
  | zero => intro i h; simp [randomRowid] at h
  | succ n ih =>
    intro i h
    simp only [randomRowid] at h
    split at h
    · exact ih (i + 1) h
    · rename_i hused
      simp only [Except.ok.injEq] at h
      subst h
      refine ⟨by omega, rowidUsed_eq_false (by simpa using hused)⟩

/-- A rowid handed out for a new row is taken by no row of the table. -/
theorem newRowid_fresh {rand : Nat → Int} {rows : List Row} {v : Int}
    (h : newRowid rand rows = .ok v) : ∀ row ∈ rows, row.id ≠ v := by
  simp only [newRowid] at h
  split at h
  · rename_i hnone
    simp [maxRowid_eq_none hnone]
  · rename_i m hsome
    split at h
    · exact (randomRowid_ok 100 0 h).2
    · simp only [Except.ok.injEq] at h
      intro row hrow
      have := le_of_maxRowid hsome row hrow
      omega

/-- A rowid handed out in a table of positive rowids is positive. -/
theorem newRowid_pos {rand : Nat → Int} {rows : List Row} {v : Int}
    (h : newRowid rand rows = .ok v) (hpos : ∀ row ∈ rows, 0 < row.id) : 0 < v := by
  simp only [newRowid] at h
  split at h
  · simp only [Except.ok.injEq] at h; omega
  · rename_i m hsome
    split at h
    · exact (randomRowid_ok 100 0 h).1
    · simp only [Except.ok.injEq] at h
      cases rows with
      | nil => simp [maxRowid] at hsome
      | cons r rs =>
        have h1 := le_of_maxRowid hsome r (by simp)
        have h2 := hpos r (by simp)
        omega

theorem mem_insertRow {r x : Row} {rows : List Row} :
    x ∈ insertRow r rows ↔ x = r ∨ x ∈ rows := by
  induction rows with
  | nil => simp [insertRow]
  | cons y ys ih =>
    simp only [insertRow]
    split
    · simp
    · simp only [List.mem_cons, ih]
      tauto

/-- Deleting a fresh rowid right after its insertion gives the table back. -/
theorem filter_insertRow {r : Row} {rows : List Row} (h : ∀ row ∈ rows, row.id ≠ r.id) :
    (insertRow r rows).filter (fun row => row.id ≠ r.id) = rows := by
  induction rows with
  | nil => simp [insertRow]
  | cons y ys ih =>
    have hy : y.id ≠ r.id := h y (by simp)
    have hys : ∀ row ∈ ys, row.id ≠ r.id := fun row hrow => h row (by simp [hrow])
    simp only [insertRow]
    split
    · rw [List.filter_cons_of_neg (by simp)]
      rw [List.filter_eq_self.mpr]
      intro row hrow
      simpa using h row hrow
    · rw [List.filter_cons_of_pos (by simpa using hy), ih hys]

theorem scanRows_eq (rows : List Row) (acc : Option (List Message)) :
    scanRows rows acc =
      .ok (if rows = [] then acc else some (acc.getD [] ++ messagesOf rows)) := by
  induction rows generalizing acc with
  | nil => simp [scanRows]
  | cons r rs ih =>
    simp only [scanRows, Row.Scan, ih]
    cases acc <;> by_cases hrs : rs = [] <;> simp [appendMessage, messagesOf, hrs]

/-! ## The handler, branch by branch -/

theorem handler_get (U : String → Except String Message) (rand : Nat → Int) (db : DB)
    (w : ResponseWriter) (r : Request) (hm : r.Method = "GET") :
    messagesHandler U rand db w r =
      (db.log .selectAll,
        Encode w (encodeMessages (if db.rows = [] then none else some (messagesOf db.rows)))) := by
  simp [messagesHandler, hm, DB.Query, scanRows_eq]

theorem handler_post (U : String → Except String Message) (rand : Nat → Int) (db : DB)
    (w : ResponseWriter) (r : Request) (body : String) (msg : Message)
    (hm : r.Method = "POST") (hb : r.Body = .ok body) (hu : U body = .ok msg) :
    messagesHandler U rand db w r =
      match newRowid rand db.rows with
      | .error err => (db.log (.insert msg.Text), Error w err StatusInternalServerError)
      | .ok v =>
        (⟨insertRow ⟨v, msg.Text⟩ db.rows, db.executed ++ [.insert msg.Text]⟩,
          Encode (w.WriteHeader StatusCreated) (Message.toJSON ⟨v, msg.Text⟩)) := by
  simp only [messagesHandler, hm, hb, hu, DB.ExecInsert]
  cases newRowid rand db.rows <;> simp [Result.LastInsertId, DB.log]

theorem handler_put (U : String → Except String Message) (rand : Nat → Int) (db : DB)
    (w : ResponseWriter) (r : Request) (body : String) (msg : Message)
    (hm : r.Method = "PUT") (hb : r.Body = .ok body) (hu : U body = .ok msg) :
    messagesHandler U rand db w r =
      (⟨db.rows.map (fun row => if row.id = msg.ID then ⟨row.id, msg.Text⟩ else row),
          db.executed ++ [.update msg.Text msg.ID]⟩,
        Encode w msg.toJSON) := by
  simp [messagesHandler, hm, hb, hu, DB.ExecUpdate, DB.log]

theorem handler_delete (U : String → Except String Message) (rand : Nat → Int) (db : DB)
    (w : ResponseWriter) (r : Request) (id : Int)
    (hm : r.Method = "DELETE") (hid : Atoi (r.QueryGet "id") = some id) :
    messagesHandler U rand db w r =
      (⟨db.rows.filter (fun row => row.id ≠ id), db.executed ++ [.delete id]⟩,
        Encode (w.WriteHeader StatusOK) (Message.toJSON ⟨id, ""⟩)) := by
  simp [messagesHandler, hm, hid, DB.ExecDelete, DB.log]

/-- A query without the key id reads as the empty string. -/
theorem queryGet_of_missing (r : Request) (h : ∀ p ∈ r.Query, p.1 ≠ "id") :
    r.QueryGet "id" = "" := by
  have hfind : r.Query.find? (fun p => p.1 == "id") = none := by
    rw [List.find?_eq_none]
    intro p hp
    simpa using h p hp
  simp [Request.QueryGet, hfind]

theorem map_update_of_missing (rows : List Row) (id : Int) (text : String)
    (h : ∀ row ∈ rows, row.id ≠ id) :
    rows.map (fun row => if row.id = id then (⟨row.id, text⟩ : Row) else row) = rows := by
  induction rows with
  | nil => rfl
  | cons r rs ih =>
    have hr : r.id ≠ id := h r (by simp)
    simp only [List.map_cons, if_neg hr]
    rw [ih (fun row hrow => h row (by simp [hrow]))]

theorem filter_delete_of_missing (rows : List Row) (id : Int)
    (h : ∀ row ∈ rows, row.id ≠ id) :
    rows.filter (fun row => row.id ≠ id) = rows := by
  rw [List.filter_eq_self]
  intro row hrow
  simpa using h row hrow

/-- What a response 201 carrying (I, T) tells about a POST: the store handed
out the rowid I and the new table is the old one with the row (I, T) put in. -/
theorem created_inv (U : String → Except String Message) (rand : Nat → Int) (db db₁ : DB)
    (r : Request) (I : Int) (T : String) (hm : r.Method = "POST")
    (h : messagesHandler U rand db .fresh r =
      (db₁, ⟨some 201, [.json (Message.toJSON ⟨I, T⟩)]⟩)) :
    newRowid rand db.rows = .ok I ∧
      db₁ = ⟨insertRow ⟨I, T⟩ db.rows, db.executed ++ [.insert T]⟩ := by
  cases hb : r.Body with
  | error e =>
    simp [messagesHandler, hm, hb, Error, ResponseWriter.fresh, ResponseWriter.WriteHeader,
      ResponseWriter.Write, StatusBadRequest] at h
  | ok body =>
    cases hu : U body with
    | error e =>
      simp [messagesHandler, hm, hb, hu, Error, ResponseWriter.fresh,
        ResponseWriter.WriteHeader, ResponseWriter.Write, StatusBadRequest] at h
    | ok msg =>
      rw [handler_post U rand db _ r body msg hm hb hu] at h
      cases hn : newRowid rand db.rows with
      | error e =>
        simp [hn, Error, ResponseWriter.fresh, ResponseWriter.WriteHeader,
          ResponseWriter.Write, StatusInternalServerError] at h
      | ok v =>
        simp [hn, Encode, ResponseWriter.fresh, ResponseWriter.WriteHeader,
          ResponseWriter.Write, StatusCreated, Message.toJSON] at h
        obtain ⟨hdb, hv, ht⟩ := h
        subst hv ht
        exact ⟨rfl, hdb.symm⟩

theorem handler_rows_pos (U : String → Except String Message) (rand : Nat → Int) (db : DB)
    (w : ResponseWriter) (r : Request) (h : ∀ row ∈ db.rows, 0 < row.id) :
    ∀ row ∈ (messagesHandler U rand db w r).1.rows, 0 < row.id := by
  by_cases hg : r.Method = "GET"
  · rw [handler_get U rand db w r hg]; exact h
  by_cases hp : r.Method = "POST"
  · cases hb : r.Body with
    | error e => simpa [messagesHandler, hp, hb] using h
    | ok body =>
      cases hu : U body with
      | error e => simpa [messagesHandler, hp, hb, hu] using h
      | ok msg =>
        rw [handler_post U rand db w r body msg hp hb hu]
        cases hn : newRowid rand db.rows with
        | error e => exact h
        | ok v =>
          intro row hrow
          rcases mem_insertRow.mp hrow with hr | hr
          · subst hr; exact newRowid_pos hn h
          · exact h row hr
  by_cases hu : r.Method = "PUT"
  · cases hb : r.Body with
    | error e => simpa [messagesHandler, hu, hb] using h
    | ok body =>
      cases hd : U body with
      | error e => simpa [messagesHandler, hu, hb, hd] using h
      | ok msg =>
        rw [handler_put U rand db w r body msg hu hb hd]
        intro row hrow
        obtain ⟨row₀, h₀, hrow₀⟩ := List.mem_map.mp hrow
        have := h row₀ h₀
        split at hrow₀ <;> subst hrow₀ <;> exact this
  by_cases hd : r.Method = "DELETE"
  · cases hid : Atoi (r.QueryGet "id") with
    | none => simpa [messagesHandler, hd, hid] using h
    | some id =>
      rw [handler_delete U rand db w r id hd hid]
      intro row hrow
      exact h row (List.mem_filter.mp hrow).1
  · simpa [messagesHandler, hg, hp, hu, hd] using h

theorem run_rows_pos (U : String → Except String Message) (calls : List Call) :
    ∀ db : DB, (∀ row ∈ db.rows, 0 < row.id) → ∀ row ∈ (run U db calls).rows, 0 < row.id := by
  induction calls with
  | nil => intro db h; exact h
  | cons c cs ih =>
    intro db h
    exact ih _ (handler_rows_pos U c.rand db .fresh c.req h)

theorem messagesOf_update_mem (rows : List Row) (I : Int) (T T2 : String)
    (h : (⟨I, T⟩ : Row) ∈ rows) :
    (⟨I, T2⟩ : Message) ∈
      messagesOf (rows.map (fun row => if row.id = I then (⟨row.id, T2⟩ : Row) else row)) := by
  simp only [messagesOf, List.map_map, List.mem_map]
  exact ⟨⟨I, T⟩, h, by simp⟩

theorem messagesOf_update_unique (rows : List Row) (I : Int) (T2 : String) :
    ∀ m ∈ messagesOf (rows.map (fun row => if row.id = I then (⟨row.id, T2⟩ : Row) else row)),
      m.ID = I → m = ⟨I, T2⟩ := by
  intro m hm hid
  simp only [messagesOf, List.map_map, List.mem_map] at hm
  obtain ⟨row, _, hrow⟩ := hm
  by_cases hr : row.id = I
  · simp [hr] at hrow
    exact hrow.symm
  · simp [hr] at hrow
    subst hrow
    exact absurd hid hr

theorem messagesOf_update_others (rows : List Row) (I : Int) (T2 : String) :
    (messagesOf (rows.map (fun row => if row.id = I then (⟨row.id, T2⟩ : Row) else row))).filter
        (fun m => m.ID ≠ I) =
      (messagesOf rows).filter (fun m => m.ID ≠ I) := by
  induction rows with
  | nil => rfl
  | cons r rs ih =>
    simp only [messagesOf, List.map_cons] at ih ⊢
    by_cases hr : r.id = I
    · simp only [hr, if_true]
      rw [List.filter_cons_of_neg (by simp), List.filter_cons_of_neg (by simp)]
      exact ih
    · simp only [hr, if_false]
      rw [List.filter_cons_of_pos (by simpa using hr), List.filter_cons_of_pos (by simpa using hr)]
      rw [ih]

/-! ## Claims -/

/-- C8: a request whose method is none of GET, POST, PUT, DELETE is answered
with status 405 and the fixed text, and the store (rows and statement log) is
the one before the request. -/
theorem unsupported_method_405 (U : String → Except String Message) (rand : Nat → Int)
    (db : DB) (r : Request)
    (hget : r.Method ≠ "GET") (hpost : r.Method ≠ "POST")
    (hput : r.Method ≠ "PUT") (hdel : r.Method ≠ "DELETE") :
    messagesHandler U rand db .fresh r =
      (db, ⟨some 405, [.line "Método não suportado"]⟩) := by
  simp [messagesHandler, hget, hpost, hput, hdel, Error, ResponseWriter.fresh,
    ResponseWriter.WriteHeader, ResponseWriter.Write, StatusMethodNotAllowed]

theorem unsupported_method_405_witness :
    patchReq.Method ≠ "GET" ∧ patchReq.Method ≠ "POST" ∧ patchReq.Method ≠ "PUT" ∧
      patchReq.Method ≠ "DELETE" ∧
      messagesHandler sampleUnmarshal zeroRand oneRow .fresh patchReq =
        (oneRow, ⟨some 405, [.line "Método não suportado"]⟩) :=
  ⟨by decide, by decide, by decide, by decide,
    unsupported_method_405 sampleUnmarshal zeroRand oneRow patchReq
      (by decide) (by decide) (by decide) (by decide)⟩

/-- C9: for POST and for PUT, a body that was read but does not decode as a
Message is answered with status 400 and the fixed parse-error text; the store is
returned as it was, statement log included, so no SQL statement was executed. -/
theorem undecodable_body_400 (U : String → Except String Message) (rand : Nat → Int)
    (db : DB) (r : Request) (body err : String)
    (hm : r.Method = "POST" ∨ r.Method = "PUT") (hb : r.Body = .ok body)
    (hu : U body = .error err) :
    messagesHandler U rand db .fresh r =
      (db, ⟨some 400, [.line "Erro ao analisar o corpo da solicitação"]⟩) := by
  rcases hm with hm | hm <;>
    simp [messagesHandler, hm, hb, hu, Error, ResponseWriter.fresh,
      ResponseWriter.WriteHeader, ResponseWriter.Write, StatusBadRequest]

theorem undecodable_body_400_witness :
    (postGarbage.Method = "POST" ∨ postGarbage.Method = "PUT") ∧
      postGarbage.Body = .ok "not json" ∧
      sampleUnmarshal "not json" = .error "invalid character" ∧
      messagesHandler sampleUnmarshal zeroRand oneRow .fresh postGarbage =
        (oneRow, ⟨some 400, [.line "Erro ao analisar o corpo da solicitação"]⟩) :=
  ⟨Or.inl rfl, rfl, rfl,
    undecodable_body_400 sampleUnmarshal zeroRand oneRow postGarbage "not json"
      "invalid character" (Or.inl rfl) rfl rfl⟩

/-- C10: a DELETE whose query has no id, or whose id is rejected by Atoi (as
abc is), is answered with status 400 and the fixed invalid-id text; the store is
returned as it was, statement log included, so no delete was executed. -/
theorem delete_invalid_id_400 (U : String → Except String Message) (rand : Nat → Int)
    (db : DB) (r : Request) (hm : r.Method = "DELETE")
    (hid : (∀ p ∈ r.Query, p.1 ≠ "id") ∨ Atoi (r.QueryGet "id") = none) :
    messagesHandler U rand db .fresh r = (db, ⟨some 400, [.line "ID inválido"]⟩) := by
  have hnone : Atoi (r.QueryGet "id") = none := by
    rcases hid with h | h
    · rw [queryGet_of_missing r h]; rfl
    · exact h
  simp [messagesHandler, hm, hnone, Error, ResponseWriter.fresh,
    ResponseWriter.WriteHeader, ResponseWriter.Write, StatusBadRequest]

theorem delete_invalid_id_400_witness :
    deleteAbc.Method = "DELETE" ∧
      ((∀ p ∈ deleteAbc.Query, p.1 ≠ "id") ∨ Atoi (deleteAbc.QueryGet "id") = none) ∧
      messagesHandler sampleUnmarshal zeroRand oneRow .fresh deleteAbc =
        (oneRow, ⟨some 400, [.line "ID inválido"]⟩) :=
  ⟨rfl, Or.inr (by decide),
    delete_invalid_id_400 sampleUnmarshal zeroRand oneRow deleteAbc rfl (Or.inr (by decide))⟩

/-- C3 (evaluation of the code): on the store right after init, with no rows,
GET answers status 200 with the JSON value null, not with an empty array. -/
theorem list_empty_store_writes_null (U : String → Except String Message)
    (rand : Nat → Int) :
    messagesHandler U rand (init none) .fresh getAll =
      (⟨[], [.createTable, .selectAll]⟩, ⟨some 200, [.json .null]⟩) := by
  rfl

/-- C6: a PUT whose decoded id matches no row is answered with status 200 and
the submitted Message; the rows are the same list as before, and a List after it
answers what a List before it answers. -/
theorem update_missing_id (U : String → Except String Message) (rand rand' : Nat → Int)
    (db : DB) (r r' : Request) (body : String) (msg : Message)
    (hm : r.Method = "PUT") (hb : r.Body = .ok body) (hu : U body = .ok msg)
    (hno : ∀ row ∈ db.rows, row.id ≠ msg.ID) (hg : r'.Method = "GET") :
    (messagesHandler U rand db .fresh r).2 = ⟨some 200, [.json msg.toJSON]⟩ ∧
      (messagesHandler U rand db .fresh r).1.rows = db.rows ∧
      (messagesHandler U rand db .fresh r).1.rows.length = db.rows.length ∧
      (messagesHandler U rand' (messagesHandler U rand db .fresh r).1 .fresh r').2 =
        (messagesHandler U rand' db .fresh r').2 := by
  rw [handler_get U rand' _ _ r' hg, handler_get U rand' db _ r' hg,
    handler_put U rand db _ r body msg hm hb hu]
  simp only [map_update_of_missing db.rows msg.ID msg.Text hno]
  simp [Encode, ResponseWriter.fresh, ResponseWriter.Write]

theorem update_missing_id_witness :
    putSevenB.Method = "PUT" ∧
      putSevenB.Body = .ok "\x7b\"id\":7,\"message\":\"b\"\x7d" ∧
      sampleUnmarshal "\x7b\"id\":7,\"message\":\"b\"\x7d" = .ok ⟨7, "b"⟩ ∧
      (∀ row ∈ oneRow.rows, row.id ≠ (⟨7, "b"⟩ : Message).ID) ∧ getAll.Method = "GET" ∧
      ((messagesHandler sampleUnmarshal zeroRand oneRow .fresh putSevenB).2 =
          ⟨some 200, [.json (Message.toJSON ⟨7, "b"⟩)]⟩ ∧
        (messagesHandler sampleUnmarshal zeroRand oneRow .fresh putSevenB).1.rows = oneRow.rows ∧
        (messagesHandler sampleUnmarshal zeroRand oneRow .fresh putSevenB).1.rows.length =
          oneRow.rows.length ∧
        (messagesHandler sampleUnmarshal zeroRand
            (messagesHandler sampleUnmarshal zeroRand oneRow .fresh putSevenB).1 .fresh getAll).2 =
          (messagesHandler sampleUnmarshal zeroRand oneRow .fresh getAll).2) :=
  ⟨rfl, rfl, rfl, by decide, rfl,
    update_missing_id sampleUnmarshal zeroRand zeroRand oneRow putSevenB getAll
      "\x7b\"id\":7,\"message\":\"b\"\x7d" ⟨7, "b"⟩ rfl rfl rfl (by decide) rfl⟩

/-- C7: a DELETE whose id parameter parses to an integer that matches no row is
answered with status 200 and the Message with that id and an empty text; the
rows are the same list as before. -/
theorem delete_missing_id (U : String → Except String Message) (rand : Nat → Int)
    (db : DB) (r : Request) (id : Int)
    (hm : r.Method = "DELETE") (hid : Atoi (r.QueryGet "id") = some id)
    (hno : ∀ row ∈ db.rows, row.id ≠ id) :
    (messagesHandler U rand db .fresh r).2 =
        ⟨some 200, [.json (Message.toJSON ⟨id, ""⟩)]⟩ ∧
      (messagesHandler U rand db .fresh r).1.rows = db.rows := by
  rw [handler_delete U rand db _ r id hm hid]
  simp only [filter_delete_of_missing db.rows id hno]
  simp [Encode, ResponseWriter.fresh, ResponseWriter.Write, ResponseWriter.WriteHeader,
    StatusOK]

theorem delete_missing_id_witness :
    deleteSeven.Method = "DELETE" ∧ Atoi (deleteSeven.QueryGet "id") = some 7 ∧
      (∀ row ∈ oneRow.rows, row.id ≠ 7) ∧
      ((messagesHandler sampleUnmarshal zeroRand oneRow .fresh deleteSeven).2 =
          ⟨some 200, [.json (Message.toJSON ⟨7, ""⟩)]⟩ ∧
        (messagesHandler sampleUnmarshal zeroRand oneRow .fresh deleteSeven).1.rows =
          oneRow.rows) :=
  ⟨rfl, by decide, by decide,
    delete_missing_id sampleUnmarshal zeroRand oneRow deleteSeven 7 rfl (by decide)
      (by decide)⟩

/-- C1: a POST whose body decodes to a Message (with any id) and whose insert
succeeds is answered with status 201 and the Message made of the rowid the store
gave the new row and the submitted text; that row is in the table, and a GET
right after answers 200 with an array that holds exactly that pair. -/
theorem create_then_list (U : String → Except String Message) (rand rand' : Nat → Int)
    (db db' : DB) (r r' : Request) (body : String) (msg : Message) (res : Result)
    (hm : r.Method = "POST") (hb : r.Body = .ok body) (hu : U body = .ok msg)
    (hins : db.ExecInsert rand msg.Text = (db', .ok res)) (hg : r'.Method = "GET") :
    messagesHandler U rand db .fresh r =
        (db', ⟨some 201, [.json (Message.toJSON ⟨res.lastInsertId, msg.Text⟩)]⟩) ∧
      db'.rows = insertRow ⟨res.lastInsertId, msg.Text⟩ db.rows ∧
      (⟨res.lastInsertId, msg.Text⟩ : Row) ∈ db'.rows ∧
      (messagesHandler U rand' db' .fresh r').2 =
        ⟨some 200, [.json (.arr ((messagesOf db'.rows).map Message.toJSON))]⟩ ∧
      (⟨res.lastInsertId, msg.Text⟩ : Message) ∈ messagesOf db'.rows := by
  rw [handler_post U rand db _ r body msg hm hb hu, handler_get U rand' db' _ r' hg]
  simp only [DB.ExecInsert] at hins
  cases hn : newRowid rand db.rows with
  | error e => simp [hn] at hins
  | ok v =>
    simp only [hn, Prod.mk.injEq, Except.ok.injEq] at hins
    obtain ⟨hdb, hres⟩ := hins
    subst hdb hres
    have hmem : (⟨v, msg.Text⟩ : Row) ∈ insertRow ⟨v, msg.Text⟩ db.rows :=
      mem_insertRow.mpr (Or.inl rfl)
    have hne : insertRow ⟨v, msg.Text⟩ db.rows ≠ [] := List.ne_nil_of_mem hmem
    refine ⟨?_, rfl, hmem, ?_, ?_⟩
    · simp [DB.log, Encode, ResponseWriter.fresh, ResponseWriter.WriteHeader,
        ResponseWriter.Write, StatusCreated]
    · simp [DB.log, hne, Encode, ResponseWriter.fresh, ResponseWriter.Write, encodeMessages]
    · exact List.mem_map.mpr ⟨_, hmem, rfl⟩

theorem create_then_list_witness :
    postSevenB.Method = "POST" ∧
      postSevenB.Body = .ok "\x7b\"id\":7,\"message\":\"b\"\x7d" ∧
      sampleUnmarshal "\x7b\"id\":7,\"message\":\"b\"\x7d" = .ok ⟨7, "b"⟩ ∧
      (init none).ExecInsert zeroRand "b" =
        (⟨[⟨1, "b"⟩], [.createTable, .insert "b"]⟩, .ok ⟨1⟩) ∧
      getAll.Method = "GET" ∧
      (messagesHandler sampleUnmarshal zeroRand (init none) .fresh postSevenB =
          (⟨[⟨1, "b"⟩], [.createTable, .insert "b"]⟩,
            ⟨some 201, [.json (Message.toJSON ⟨1, "b"⟩)]⟩) ∧
        [(⟨1, "b"⟩ : Row)] = insertRow ⟨1, "b"⟩ (init none).rows ∧
        (⟨1, "b"⟩ : Row) ∈ [(⟨1, "b"⟩ : Row)] ∧
        (messagesHandler sampleUnmarshal zeroRand ⟨[⟨1, "b"⟩], [.createTable, .insert "b"]⟩
            .fresh getAll).2 =
          ⟨some 200, [.json (.arr ((messagesOf [⟨1, "b"⟩]).map Message.toJSON))]⟩ ∧
        (⟨1, "b"⟩ : Message) ∈ messagesOf [⟨1, "b"⟩]) :=
  ⟨rfl, rfl, rfl, rfl, rfl,
    create_then_list sampleUnmarshal zeroRand zeroRand (init none)
      ⟨[⟨1, "b"⟩], [.createTable, .insert "b"]⟩ postSevenB getAll
      "\x7b\"id\":7,\"message\":\"b\"\x7d" ⟨7, "b"⟩ ⟨1⟩ rfl rfl rfl rfl rfl⟩

/-- C4: when a POST is answered 201 with (I, T) and a PUT with (I, T2) follows,
a GET after it answers 200 with an array that holds (I, T2), holds no other
message with id I (so not (I, T) when T and T2 differ), and agrees on all other
ids with the table as it was before the PUT. -/
theorem create_update_list (U : String → Except String Message)
    (rand₁ rand₂ rand₃ : Nat → Int) (db db₁ : DB) (r₁ r₂ r₃ : Request)
    (I : Int) (T T2 body₂ : String)
    (h1m : r₁.Method = "POST")
    (h1 : messagesHandler U rand₁ db .fresh r₁ =
      (db₁, ⟨some 201, [.json (Message.toJSON ⟨I, T⟩)]⟩))
    (h2m : r₂.Method = "PUT") (h2b : r₂.Body = .ok body₂) (h2u : U body₂ = .ok ⟨I, T2⟩)
    (h3m : r₃.Method = "GET") :
    (messagesHandler U rand₃ (messagesHandler U rand₂ db₁ .fresh r₂).1 .fresh r₃).2 =
        ⟨some 200, [.json (.arr ((messagesOf
          (messagesHandler U rand₂ db₁ .fresh r₂).1.rows).map Message.toJSON))]⟩ ∧
      (⟨I, T2⟩ : Message) ∈ messagesOf (messagesHandler U rand₂ db₁ .fresh r₂).1.rows ∧
      (∀ m ∈ messagesOf (messagesHandler U rand₂ db₁ .fresh r₂).1.rows,
        m.ID = I → m = ⟨I, T2⟩) ∧
      (T ≠ T2 → (⟨I, T⟩ : Message) ∉ messagesOf (messagesHandler U rand₂ db₁ .fresh r₂).1.rows) ∧
      (messagesOf (messagesHandler U rand₂ db₁ .fresh r₂).1.rows).filter (fun m => m.ID ≠ I) =
        (messagesOf db₁.rows).filter (fun m => m.ID ≠ I) := by
  obtain ⟨_, hdb₁⟩ := created_inv U rand₁ db db₁ r₁ I T h1m h1
  have hmem₁ : (⟨I, T⟩ : Row) ∈ db₁.rows := by
    rw [hdb₁]; exact mem_insertRow.mpr (Or.inl rfl)
  rw [handler_get U rand₃ _ _ r₃ h3m, handler_put U rand₂ db₁ _ r₂ body₂ ⟨I, T2⟩ h2m h2b h2u]
  have hmem₂ := messagesOf_update_mem db₁.rows I T T2 hmem₁
  have huniq := messagesOf_update_unique db₁.rows I T2
  have hne : db₁.rows ≠ [] := List.ne_nil_of_mem hmem₁
  refine ⟨?_, hmem₂, huniq, ?_, messagesOf_update_others db₁.rows I T2⟩
  · simp [DB.log, hne, Encode, ResponseWriter.fresh, ResponseWriter.Write, encodeMessages]
  · intro hT hmem
    have := huniq ⟨I, T⟩ hmem rfl
    simp only [Message.mk.injEq, true_and] at this
    exact hT this

theorem create_update_list_witness :
    postA.Method = "POST" ∧
      messagesHandler sampleUnmarshal zeroRand (init none) .fresh postA =
        (oneRow, ⟨some 201, [.json (Message.toJSON ⟨1, "a"⟩)]⟩) ∧
      putOneB.Method = "PUT" ∧ putOneB.Body = .ok "\x7b\"id\":1,\"message\":\"b\"\x7d" ∧
      sampleUnmarshal "\x7b\"id\":1,\"message\":\"b\"\x7d" = .ok ⟨1, "b"⟩ ∧
      getAll.Method = "GET" ∧
      ((messagesHandler sampleUnmarshal zeroRand
            (messagesHandler sampleUnmarshal zeroRand oneRow .fresh putOneB).1 .fresh getAll).2 =
          ⟨some 200, [.json (.arr ((messagesOf
            (messagesHandler sampleUnmarshal zeroRand oneRow .fresh putOneB).1.rows).map
              Message.toJSON))]⟩ ∧
        (⟨1, "b"⟩ : Message) ∈
          messagesOf (messagesHandler sampleUnmarshal zeroRand oneRow .fresh putOneB).1.rows ∧
        (∀ m ∈ messagesOf (messagesHandler sampleUnmarshal zeroRand oneRow .fresh putOneB).1.rows,
          m.ID = 1 → m = ⟨1, "b"⟩) ∧
        ("a" ≠ "b" → (⟨1, "a"⟩ : Message) ∉
          messagesOf (messagesHandler sampleUnmarshal zeroRand oneRow .fresh putOneB).1.rows) ∧
        (messagesOf (messagesHandler sampleUnmarshal zeroRand oneRow .fresh putOneB).1.rows).filter
            (fun m => m.ID ≠ 1) =
          (messagesOf oneRow.rows).filter (fun m => m.ID ≠ 1)) :=
  ⟨rfl, rfl, rfl, rfl, rfl, rfl,
    create_update_list sampleUnmarshal zeroRand zeroRand zeroRand (init none) oneRow
      postA putOneB getAll 1 "a" "b" "\x7b\"id\":1,\"message\":\"b\"\x7d"
      rfl rfl rfl rfl rfl rfl⟩

/-- C5: when a POST is answered 201 with (I, T) and a DELETE with id I follows,
the table is again the list of rows it was before the POST, no row has id I, and
a GET after it answers what a GET before the POST answers, with no message of
id I in it. -/
theorem create_delete_list (U : String → Except String Message)
    (rand₁ rand₂ rand₃ : Nat → Int) (db db₁ : DB) (r₁ r₂ r₃ : Request)
    (I : Int) (T : String)
    (h1m : r₁.Method = "POST")
    (h1 : messagesHandler U rand₁ db .fresh r₁ =
      (db₁, ⟨some 201, [.json (Message.toJSON ⟨I, T⟩)]⟩))
    (h2m : r₂.Method = "DELETE") (h2 : Atoi (r₂.QueryGet "id") = some I)
    (h3m : r₃.Method = "GET") :
    (messagesHandler U rand₂ db₁ .fresh r₂).1.rows = db.rows ∧
      (∀ row ∈ (messagesHandler U rand₂ db₁ .fresh r₂).1.rows, row.id ≠ I) ∧
      (messagesHandler U rand₃ (messagesHandler U rand₂ db₁ .fresh r₂).1 .fresh r₃).2 =
        (messagesHandler U rand₃ db .fresh r₃).2 ∧
      ∃ s : Option (List Message),
        (messagesHandler U rand₃ (messagesHandler U rand₂ db₁ .fresh r₂).1 .fresh r₃).2 =
            ⟨some 200, [.json (encodeMessages s)]⟩ ∧
          s.getD [] = messagesOf db.rows ∧ ∀ m ∈ s.getD [], m.ID ≠ I := by
  obtain ⟨hnew, hdb₁⟩ := created_inv U rand₁ db db₁ r₁ I T h1m h1
  have hfresh := newRowid_fresh hnew
  have hrows : (messagesHandler U rand₂ db₁ .fresh r₂).1.rows = db.rows := by
    rw [handler_delete U rand₂ db₁ _ r₂ I h2m h2, hdb₁]
    exact filter_insertRow (r := ⟨I, T⟩) hfresh
  refine ⟨hrows, ?_, ?_, ?_⟩
  · rw [hrows]; exact hfresh
  · rw [handler_get U rand₃ _ _ r₃ h3m, handler_get U rand₃ db _ r₃ h3m, hrows]
  · refine ⟨if db.rows = [] then none else some (messagesOf db.rows), ?_, ?_, ?_⟩
    · rw [handler_get U rand₃ _ _ r₃ h3m, hrows]
      simp [Encode, ResponseWriter.fresh, ResponseWriter.Write]
    · by_cases he : db.rows = [] <;> simp [he, messagesOf]
    · intro m hm
      have hm' : m ∈ messagesOf db.rows := by
        by_cases he : db.rows = []
        · simp [he] at hm
        · simpa [he] using hm
      obtain ⟨row, hrow, rfl⟩ := List.mem_map.mp hm'
      exact hfresh row hrow

theorem create_delete_list_witness :
    postB.Method = "POST" ∧
      messagesHandler sampleUnmarshal zeroRand oneRow .fresh postB =
        (twoRows, ⟨some 201, [.json (Message.toJSON ⟨2, "b"⟩)]⟩) ∧
      deleteTwo.Method = "DELETE" ∧ Atoi (deleteTwo.QueryGet "id") = some 2 ∧
      getAll.Method = "GET" ∧
      ((messagesHandler sampleUnmarshal zeroRand twoRows .fresh deleteTwo).1.rows =
          oneRow.rows ∧
        (∀ row ∈ (messagesHandler sampleUnmarshal zeroRand twoRows .fresh deleteTwo).1.rows,
          row.id ≠ 2) ∧
        (messagesHandler sampleUnmarshal zeroRand
            (messagesHandler sampleUnmarshal zeroRand twoRows .fresh deleteTwo).1
            .fresh getAll).2 =
          (messagesHandler sampleUnmarshal zeroRand oneRow .fresh getAll).2 ∧
        ∃ s : Option (List Message),
          (messagesHandler sampleUnmarshal zeroRand
              (messagesHandler sampleUnmarshal zeroRand twoRows .fresh deleteTwo).1
              .fresh getAll).2 =
              ⟨some 200, [.json (encodeMessages s)]⟩ ∧
            s.getD [] = messagesOf oneRow.rows ∧ ∀ m ∈ s.getD [], m.ID ≠ 2) :=
  ⟨rfl, rfl, rfl, by decide, rfl,
    create_delete_list sampleUnmarshal zeroRand zeroRand zeroRand oneRow twoRows
      postB deleteTwo getAll 2 "b" rfl rfl rfl (by decide) rfl⟩

/-- C2 as stated fails: from the empty store, a POST is answered 201 with id 1
and its row is in the store; DELETE id=1 empties the table; the next POST is
answered 201 with id 1 again, the id of a row that was in the store earlier. -/
theorem create_reuses_deleted_id :
    (messagesHandler sampleUnmarshal zeroRand (init none) .fresh postA).2 =
        ⟨some 201, [.json (Message.toJSON ⟨1, "a"⟩)]⟩ ∧
      (⟨1, "a"⟩ : Row) ∈ (run sampleUnmarshal (init none) [⟨zeroRand, postA⟩]).rows ∧
      (run sampleUnmarshal (init none) [⟨zeroRand, postA⟩, ⟨zeroRand, deleteOne⟩]).rows = [] ∧
      (messagesHandler sampleUnmarshal zeroRand
          (run sampleUnmarshal (init none) [⟨zeroRand, postA⟩, ⟨zeroRand, deleteOne⟩])
          .fresh postB).2 =
        ⟨some 201, [.json (Message.toJSON ⟨1, "b"⟩)]⟩ :=
  ⟨rfl, by decide, rfl, rfl⟩

/-- C2 amended: after any sequence of requests from a store with no rows, the
id in the 201 answer of a POST is positive and differs from the id of every row
that is in the store when the POST is served. -/
theorem create_id_positive_and_unused (U : String → Except String Message)
    (db₀ db' : DB) (calls : List Call) (c : Call) (id : Int) (text : String)
    (h₀ : db₀.rows = []) (hm : c.req.Method = "POST")
    (h : messagesHandler U c.rand (run U db₀ calls) .fresh c.req =
      (db', ⟨some 201, [.json (Message.toJSON ⟨id, text⟩)]⟩)) :
    0 < id ∧ ∀ row ∈ (run U db₀ calls).rows, row.id ≠ id := by
  obtain ⟨hnew, _⟩ := created_inv U c.rand (run U db₀ calls) db' c.req id text hm h
  have hpos : ∀ row ∈ (run U db₀ calls).rows, 0 < row.id :=
    run_rows_pos U calls db₀ (by simp [h₀])
  exact ⟨newRowid_pos hnew hpos, newRowid_fresh hnew⟩

theorem create_id_positive_and_unused_witness :
    (init none).rows = [] ∧ postB.Method = "POST" ∧
      messagesHandler sampleUnmarshal zeroRand
          (run sampleUnmarshal (init none) [⟨zeroRand, postA⟩, ⟨zeroRand, getAll⟩])
          .fresh postB =
        (⟨[⟨1, "a"⟩, ⟨2, "b"⟩], [.createTable, .insert "a", .selectAll, .insert "b"]⟩,
          ⟨some 201, [.json (Message.toJSON ⟨2, "b"⟩)]⟩) ∧
      ((0 : Int) < 2 ∧
        ∀ row ∈ (run sampleUnmarshal (init none) [⟨zeroRand, postA⟩, ⟨zeroRand, getAll⟩]).rows,
          row.id ≠ 2) :=
  ⟨rfl, rfl, rfl,
    create_id_positive_and_unused sampleUnmarshal (init none) _
      [⟨zeroRand, postA⟩, ⟨zeroRand, getAll⟩] ⟨zeroRand, postB⟩ 2 "b" rfl rfl rfl⟩

end TrabalhoDani
